import Mathlib

/-!
Shallow embedding of the Deadman's Tip game engine (src/src/index.ts).

The per-channel state machine is embedded as pure Lean functions:
TypeScript object mutation through the `currentPlayer` reference (an
element of `game.players`) is modelled by updating the k-th alive
element of the player list in place (`setAliveNth`), bigint balances
become `Int`, `number` turn indices become `Nat`, and the in-memory
registry entry for one channel becomes an `Option GameState` threaded
through each handler together with its outcome message tag.
-/

/-- `lastAction` values of a player (TS `'shoot' | 'pass'`, with `null`
modelled by `Option`). -/
inductive LastAct where
  | shot
  | passed
deriving DecidableEq, Repr

/-- TS `Player` record. -/
structure Player where
  userId : String
  smartAccountAddress : String
  alive : Bool
  lastAction : Option LastAct
deriving DecidableEq, Repr

/-- TS game `status` enum. -/
inductive Status where
  | waiting
  | active
  | finished
deriving DecidableEq, Repr

/-- TS `GameState` record; `potBalance : bigint` becomes `Int`. -/
structure GameState where
  players : List Player
  potBalance : Int
  currentTurnIndex : Nat
  status : Status
  winner : Option String
deriving DecidableEq, Repr

/-- `parseEther('0.0005')` : burn on pass, in wei. -/
def PASS_BURN : Int := 500000000000000

/-- `parseEther('0.001')` : grit bonus on a surviving shoot, in wei. -/
def GRIT_BONUS : Int := 1000000000000000

/-- `parseEther('0.0001')` : suggested minimum tip (informational only;
never consulted by any handler). -/
def MIN_TIP : Int := 100000000000000

/-- JS `String.prototype.toLowerCase()` restricted to what the engine
compares (identifiers and hex addresses): lower-case every character. -/
def lowerStr (s : String) : String :=
  String.mk (s.data.map Char.toLower)

/-- `getAlivePlayers`: `game.players.filter(p => p.alive)`. -/
def getAlivePlayers (game : GameState) : List Player :=
  game.players.filter (fun p => p.alive)

/-- `getCurrentPlayer`: `null` when nobody is alive, otherwise the
element of the alive subsequence at `currentTurnIndex % alive.length`. -/
def getCurrentPlayer (game : GameState) : Option Player :=
  let alive := getAlivePlayers game
  if alive.length = 0 then none
  else alive.get? (game.currentTurnIndex % alive.length)

/-- `checkForcedShoot`: everyone alive passed in this rotation (and at
least two players are alive). -/
def checkForcedShoot (game : GameState) : Bool :=
  let alive := getAlivePlayers game
  if alive.length < 2 then false
  else alive.all (fun p => p.lastAction == some LastAct.passed)

/-- `advanceTurn`: `currentTurnIndex := (currentTurnIndex + 1) % aliveCount`
(no-op when nobody is alive). -/
def advanceTurn (game : GameState) : GameState :=
  let alive := getAlivePlayers game
  if alive.length > 0 then
    { game with currentTurnIndex := (game.currentTurnIndex + 1) % alive.length }
  else game

/-- `checkWinCondition`: the sole alive player's id, when exactly one is
alive. -/
def checkWinCondition (game : GameState) : Option String :=
  let alive := getAlivePlayers game
  if h : alive.length = 1 then some ((alive.get ⟨0, by omega⟩).userId)
  else none

/-- Mutation of the TS `currentPlayer` reference: apply `f` to the k-th
alive element of the full player list, leaving every other element
untouched. -/
def setAliveNth (f : Player → Player) : List Player → Nat → List Player
  | [], _ => []
  | p :: rest, 0 => if p.alive then f p :: rest else p :: setAliveNth f rest 0
  | p :: rest, k + 1 =>
      if p.alive then p :: setAliveNth f rest k else p :: setAliveNth f rest (k + 1)

/-- `p.lastAction = null` for every alive `p` (the rotation reset loop
`getAlivePlayers(game).forEach(p => p.lastAction = null)`). -/
def resetAlive (ps : List Player) : List Player :=
  ps.map (fun p => if p.alive then { p with lastAction := none } else p)

/-- Update the k-th element of a plain list. -/
def listModify (f : α → α) : List α → Nat → List α
  | [], _ => []
  | a :: as, 0 => f a :: as
  | a :: as, k + 1 => a :: listModify f as k

/-- Outcome tag of the tip (deposit/enrollment) handler. -/
inductive TipOut where
  | wrongStatus (s : Status)
  | alreadyJoined
  | joined
deriving DecidableEq, Repr

/-- `bot.onTip`: resolve-or-create the channel's game, reject unless
`waiting`, reject duplicates by lower-cased smart-account address or by
user id, otherwise append the new player and credit the full amount. -/
def onTip (reg : Option GameState) (userId senderAddress : String) (amount : Int) :
    Option GameState × TipOut :=
  let game := reg.getD
    { players := [], potBalance := 0, currentTurnIndex := 0,
      status := Status.waiting, winner := none }
  if game.status ≠ Status.waiting then (some game, TipOut.wrongStatus game.status)
  else
    let lowAddr := lowerStr senderAddress
    if game.players.any
        (fun p => lowerStr p.smartAccountAddress == lowAddr || p.userId == userId) then
      (some game, TipOut.alreadyJoined)
    else
      (some { game with
                players := game.players ++
                  [{ userId := userId, smartAccountAddress := senderAddress,
                     alive := true, lastAction := none }],
                potBalance := game.potBalance + amount },
       TipOut.joined)

/-- Outcome tag of the start-game handler. -/
inductive StartOut where
  | noGame
  | wrongStatus (s : Status)
  | notEnoughPlayers (n : Nat)
  | started
deriving DecidableEq, Repr

/-- `bot.onSlashCommand('start-game')`. -/
def startGame (reg : Option GameState) : Option GameState × StartOut :=
  match reg with
  | none => (none, StartOut.noGame)
  | some game =>
    if game.status ≠ Status.waiting then (some game, StartOut.wrongStatus game.status)
    else if game.players.length < 2 then
      (some game, StartOut.notEnoughPlayers game.players.length)
    else
      (some { game with status := Status.active, currentTurnIndex := 0 },
       StartOut.started)

/-- Outcome tag of the shoot handler. On a win the finished game (already
deleted from the registry) rides along in the tag. -/
inductive ShootOut where
  | noActiveGame
  | gameError
  | notYourTurn
  | alreadyEliminated
  | bangWin (w : String) (final : GameState)
  | bangNext (next : Option String)
  | clickNext (next : Option String)
deriving DecidableEq, Repr

/-- The shoot outcomes that are not guard rejections. -/
def shootAccepted : ShootOut → Prop
  | ShootOut.bangWin _ _ => True
  | ShootOut.bangNext _ => True
  | ShootOut.clickNext _ => True
  | _ => False

/-- Post-guard transition of the shoot handler: the acting player's
`lastAction` is set to `shot`, then every alive player's `lastAction`
is reset; on a bang the player dies, the win check runs before any turn
advance and a win deletes the game from the registry; otherwise the
turn advances over the recomputed alive list. -/
def shootBody (game : GameState) (isDead : Bool) : Option GameState × ShootOut :=
  let k := game.currentTurnIndex % (getAlivePlayers game).length
  let ps1 := setAliveNth (fun p => { p with lastAction := some LastAct.shot })
    game.players k
  let ps2 := resetAlive ps1
  if isDead then
    let ps3 := setAliveNth (fun p => { p with alive := false }) ps2 k
    let game1 := { game with players := ps3 }
    match checkWinCondition game1 with
    | some w =>
      let final := { game1 with status := Status.finished, winner := some w }
      (none, ShootOut.bangWin w final)
    | none =>
      let game2 := advanceTurn game1
      (some game2, ShootOut.bangNext ((getCurrentPlayer game2).map Player.userId))
  else
    let game1 := { game with
                   players := ps2
                   potBalance := game.potBalance + GRIT_BONUS }
    let game2 := advanceTurn game1
    (some game2, ShootOut.clickNext ((getCurrentPlayer game2).map Player.userId))

/-- `bot.onSlashCommand('shoot')` with the 50/50 draw injected as
`isDead`. Guard order is the source's: active game, resolvable current
player, case-insensitive turn check, aliveness; then `shootBody`. -/
def shoot (reg : Option GameState) (userId : String) (isDead : Bool) :
    Option GameState × ShootOut :=
  match reg with
  | none => (none, ShootOut.noActiveGame)
  | some game =>
    if game.status ≠ Status.active then (some game, ShootOut.noActiveGame)
    else
      match getCurrentPlayer game with
      | none => (some game, ShootOut.gameError)
      | some currentPlayer =>
        if lowerStr currentPlayer.userId ≠ lowerStr userId then
          (some game, ShootOut.notYourTurn)
        else if currentPlayer.alive = false then
          (some game, ShootOut.alreadyEliminated)
        else
          shootBody game isDead

/-- Outcome tag of the pass handler. -/
inductive PassOut where
  | noActiveGame
  | gameError
  | notYourTurn
  | alreadyEliminated
  | mustShoot
  | passAccepted (burn : Int) (next : Option String) (forced : Bool)
deriving DecidableEq, Repr

/-- Everyone other than the acting player (by the source's exact
`p.userId !== userId` comparison) is alive and has already passed. -/
def allOthersPassed (game : GameState) (userId : String) : Bool :=
  let otherPlayers := (getAlivePlayers game).filter (fun p => p.userId != userId)
  otherPlayers.length > 0 &&
    otherPlayers.all (fun p => p.lastAction == some LastAct.passed)

/-- Post-guard transition of the pass handler: the pot burns
`min(potBalance, PASS_BURN)`, the turn advances, and if a full rotation
of passes is then detected every alive player's `lastAction` is reset. -/
def passBody (game : GameState) : Option GameState × PassOut :=
  let k := game.currentTurnIndex % (getAlivePlayers game).length
  let ps1 := setAliveNth (fun p => { p with lastAction := some LastAct.passed })
    game.players k
  let burnAmount :=
    if game.potBalance ≥ PASS_BURN then PASS_BURN else game.potBalance
  let game1 := { game with
                 players := ps1
                 potBalance := game.potBalance - burnAmount }
  let game2 := advanceTurn game1
  let allJustPassed := checkForcedShoot game2
  let game3 :=
    if (getCurrentPlayer game2).isSome && allJustPassed then
      { game2 with players := resetAlive game2.players }
    else game2
  (some game3,
   PassOut.passAccepted burnAmount
     ((getCurrentPlayer game2).map Player.userId) allJustPassed)

/-- `bot.onSlashCommand('pass')`. After the four shoot guards, the
forced-shoot rule rejects when every *other* alive player has passed;
otherwise `passBody`. -/
def passCmd (reg : Option GameState) (userId : String) :
    Option GameState × PassOut :=
  match reg with
  | none => (none, PassOut.noActiveGame)
  | some game =>
    if game.status ≠ Status.active then (some game, PassOut.noActiveGame)
    else
      match getCurrentPlayer game with
      | none => (some game, PassOut.gameError)
      | some currentPlayer =>
        if lowerStr currentPlayer.userId ≠ lowerStr userId then
          (some game, PassOut.notYourTurn)
        else if currentPlayer.alive = false then
          (some game, PassOut.alreadyEliminated)
        else if allOthersPassed game userId then
          (some game, PassOut.mustShoot)
        else
          passBody game

/-- `bot.onSlashCommand('game-status')` finds a game for the channel
exactly when the registry holds one. -/
def gameStatusFound (reg : Option GameState) : Bool :=
  reg.isSome

/-- One inbound event for a single channel. -/
inductive Act where
  | tipA (userId senderAddress : String) (amount : Int)
  | startA
  | shootA (userId : String) (isDead : Bool)
  | passA (userId : String)
deriving DecidableEq, Repr

/-- Registry-entry effect of one inbound event. -/
def stepA (reg : Option GameState) : Act → Option GameState
  | Act.tipA u a amt => (onTip reg u a amt).1
  | Act.startA => (startGame reg).1
  | Act.shootA u d => (shoot reg u d).1
  | Act.passA u => (passCmd reg u).1

/-- Fold a sequence of inbound events over the registry entry. -/
def runActs (reg : Option GameState) (acts : List Act) : Option GameState :=
  acts.foldl stepA reg

/-- The event is a shoot or a pass. -/
def isRiskAct : Act → Prop
  | Act.shootA _ _ => True
  | Act.passA _ => True
  | _ => False

/-- The state reached inside the shoot body on a bang, before the win
check: k-th alive player marked `shot`, rotation reset, then killed. -/
def deadState (game : GameState) : GameState :=
  { game with
    players := setAliveNth (fun p => { p with alive := false })
      (resetAlive (setAliveNth (fun p => { p with lastAction := some LastAct.shot })
        game.players (game.currentTurnIndex % (getAlivePlayers game).length)))
      (game.currentTurnIndex % (getAlivePlayers game).length) }

/-- The state reached inside the shoot body on a click, before the turn
advance: k-th alive player marked `shot`, rotation reset, grit bonus. -/
def liveState (game : GameState) : GameState :=
  { game with
    players := resetAlive (setAliveNth (fun p => { p with lastAction := some LastAct.shot })
      game.players (game.currentTurnIndex % (getAlivePlayers game).length))
    potBalance := game.potBalance + GRIT_BONUS }

/-! ### Helper lemmas about the embedding -/

theorem length_listModify (f : α → α) (l : List α) (k : Nat) :
    (listModify f l k).length = l.length := by
  induction l generalizing k with
  | nil => rfl
  | cons a as ih =>
    cases k with
    | zero => rfl
    | succ k => simp [listModify, ih]

theorem map_listModify (g : α → β) (f : α → α)
    (hf : ∀ a, g (f a) = g a) (l : List α) (k : Nat) :
    (listModify f l k).map g = l.map g := by
  induction l generalizing k with
  | nil => rfl
  | cons a as ih =>
    cases k with
    | zero => simp [listModify, hf]
    | succ k => simp [listModify, ih]

theorem map_eraseIdx_comm (g : α → β) (l : List α) (k : Nat) :
    (l.eraseIdx k).map g = (l.map g).eraseIdx k := by
  induction l generalizing k with
  | nil => rfl
  | cons a as ih =>
    cases k with
    | zero => rfl
    | succ k => simp [List.eraseIdx, ih]

theorem getElem?_listModify (f : α → α) (l : List α) (k i : Nat) :
    (listModify f l k)[i]? = if i = k then (l[i]?).map f else l[i]? := by
  induction l generalizing k i with
  | nil => simp [listModify]
  | cons a as ih =>
    cases k with
    | zero =>
      cases i with
      | zero => simp [listModify]
      | succ i => simp [listModify]
    | succ k =>
      cases i with
      | zero => simp [listModify]
      | succ i => simpa [listModify] using ih k i

/-- Members of the current player's alive filter are alive. -/
theorem mem_getAlivePlayers_alive {game : GameState} {p : Player}
    (h : p ∈ getAlivePlayers game) : p.alive = true := by
  exact (List.mem_filter.mp h).2

theorem getCurrentPlayer_mem {game : GameState} {p : Player}
    (h : getCurrentPlayer game = some p) : p ∈ getAlivePlayers game := by
  unfold getCurrentPlayer at h
  by_cases h0 : (getAlivePlayers game).length = 0
  · simp [h0] at h
  · simp only [h0, if_false] at h
    exact List.get?_mem h

theorem getCurrentPlayer_alive {game : GameState} {p : Player}
    (h : getCurrentPlayer game = some p) : p.alive = true :=
  mem_getAlivePlayers_alive (getCurrentPlayer_mem h)

/-- When someone is alive, the current player is the alive-list element
at the turn index modulo the alive count. -/
theorem getCurrentPlayer_eq_getElem? {game : GameState}
    (h : (getAlivePlayers game).length ≠ 0) :
    getCurrentPlayer game =
      (getAlivePlayers game)[game.currentTurnIndex % (getAlivePlayers game).length]? := by
  unfold getCurrentPlayer
  simp only [h, if_false, List.get?_eq_getElem?]

theorem getCurrentPlayer_isSome {game : GameState}
    (h : (getAlivePlayers game).length ≠ 0) :
    ∃ p, getCurrentPlayer game = some p := by
  rw [getCurrentPlayer_eq_getElem? h]
  have hlt : game.currentTurnIndex % (getAlivePlayers game).length <
      (getAlivePlayers game).length := Nat.mod_lt _ (Nat.pos_of_ne_zero h)
  exact ⟨_, List.getElem?_eq_getElem hlt⟩

theorem getCurrentPlayer_none {game : GameState}
    (h : (getAlivePlayers game).length = 0) :
    getCurrentPlayer game = none := by
  unfold getCurrentPlayer
  simp [h]

/-- The alive filter after `setAliveNth` with an aliveness-preserving
update is `listModify` on the alive filter. -/
theorem filterAlive_setAliveNth (f : Player → Player)
    (hf : ∀ p, (f p).alive = p.alive) (ps : List Player) (k : Nat) :
    (setAliveNth f ps k).filter (fun p => p.alive) =
      listModify f (ps.filter (fun p => p.alive)) k := by
  induction ps generalizing k with
  | nil => rfl
  | cons p rest ih =>
    by_cases hp : p.alive
    · cases k with
      | zero => simp [setAliveNth, hp, List.filter_cons, hf, listModify]
      | succ k => simp [setAliveNth, hp, List.filter_cons, hf, listModify, ih]
    · cases k with
      | zero =>
        simp only [setAliveNth, hp, if_false, List.filter_cons]
        simpa [hp] using ih 0
      | succ k =>
        simp only [setAliveNth, hp, if_false, List.filter_cons]
        simpa [hp] using ih (k + 1)

/-- Eliminating the k-th alive player erases index k of the alive filter. -/
theorem filterAlive_setAliveNth_kill (ps : List Player) (k : Nat) :
    (setAliveNth (fun p => { p with alive := false }) ps k).filter (fun p => p.alive) =
      (ps.filter (fun p => p.alive)).eraseIdx k := by
  induction ps generalizing k with
  | nil => rfl
  | cons p rest ih =>
    by_cases hp : p.alive
    · cases k with
      | zero => simp [setAliveNth, hp, List.filter_cons, List.eraseIdx]
      | succ k => simp [setAliveNth, hp, List.filter_cons, List.eraseIdx, ih]
    · cases k with
      | zero =>
        simp only [setAliveNth, hp, if_false, List.filter_cons]
        simpa [hp] using ih 0
      | succ k =>
        simp only [setAliveNth, hp, if_false, List.filter_cons]
        simpa [hp] using ih (k + 1)

/-- The alive filter after the rotation reset is the reset of the alive
filter. -/
theorem filterAlive_resetAlive (ps : List Player) :
    (resetAlive ps).filter (fun p => p.alive) =
      (ps.filter (fun p => p.alive)).map (fun p => { p with lastAction := none }) := by
  induction ps with
  | nil => rfl
  | cons p rest ih =>
    simp only [resetAlive] at ih ⊢
    by_cases hp : p.alive
    · simp [List.filter_cons, hp, ih]
    · simp [List.filter_cons, hp, ih]

theorem mem_setAliveNth {q : Player} (f : Player → Player) (ps : List Player) (k : Nat)
    (h : q ∈ setAliveNth f ps k) : q ∈ ps ∨ ∃ p ∈ ps, q = f p := by
  induction ps generalizing k with
  | nil => simp [setAliveNth] at h
  | cons p rest ih =>
    by_cases hp : p.alive
    · cases k with
      | zero =>
        simp only [setAliveNth, hp, if_true] at h
        rcases List.mem_cons.mp h with h | h
        · exact Or.inr ⟨p, List.mem_cons_self p rest, h⟩
        · exact Or.inl (List.mem_cons_of_mem p h)
      | succ k =>
        simp only [setAliveNth, hp, if_true] at h
        rcases List.mem_cons.mp h with h | h
        · exact Or.inl (h ▸ List.mem_cons_self p rest)
        · rcases ih k h with h | ⟨r, hr, hq⟩
          · exact Or.inl (List.mem_cons_of_mem p h)
          · exact Or.inr ⟨r, List.mem_cons_of_mem p hr, hq⟩
    · cases k with
      | zero =>
        simp only [setAliveNth, hp, if_false] at h
        rcases List.mem_cons.mp h with h | h
        · exact Or.inl (h ▸ List.mem_cons_self p rest)
        · rcases ih 0 h with h | ⟨r, hr, hq⟩
          · exact Or.inl (List.mem_cons_of_mem p h)
          · exact Or.inr ⟨r, List.mem_cons_of_mem p hr, hq⟩
      | succ k =>
        simp only [setAliveNth, hp, if_false] at h
        rcases List.mem_cons.mp h with h | h
        · exact Or.inl (h ▸ List.mem_cons_self p rest)
        · rcases ih (k + 1) h with h | ⟨r, hr, hq⟩
          · exact Or.inl (List.mem_cons_of_mem p h)
          · exact Or.inr ⟨r, List.mem_cons_of_mem p hr, hq⟩

/-- Every alive member of a reset list carries no `lastAction`. -/
theorem resetAlive_alive_lastAction {q : Player} {ps : List Player}
    (h : q ∈ resetAlive ps) (ha : q.alive = true) : q.lastAction = none := by
  rcases List.mem_map.mp h with ⟨p, _, hq⟩
  by_cases hp : p.alive
  · simp only [hp, if_true] at hq
    rw [← hq]
  · simp only [hp, if_false] at hq
    rw [← hq] at ha
    exact absurd ha (by simp [hp])

/-- When all four guards succeed, the shoot handler runs its body. -/
theorem shoot_eq_shootBody {game : GameState} {u : String} {cp : Player} (d : Bool)
    (hact : game.status = Status.active)
    (hcp : getCurrentPlayer game = some cp)
    (hu : lowerStr cp.userId = lowerStr u) :
    shoot (some game) u d = shootBody game d := by
  have halive : cp.alive = true := getCurrentPlayer_alive hcp
  simp [shoot, hact, hcp, hu, halive]

/-- When the guards succeed and someone else may still act, the pass
handler runs its body. -/
theorem passCmd_eq_passBody {game : GameState} {u : String} {cp : Player}
    (hact : game.status = Status.active)
    (hcp : getCurrentPlayer game = some cp)
    (hu : lowerStr cp.userId = lowerStr u)
    (hforced : allOthersPassed game u = false) :
    passCmd (some game) u = passBody game := by
  have halive : cp.alive = true := getCurrentPlayer_alive hcp
  simp [passCmd, hact, hcp, hu, halive, hforced]

/-- When the guards succeed but every other alive player has passed, the
pass is rejected with no state change. -/
theorem passCmd_mustShoot {game : GameState} {u : String} {cp : Player}
    (hact : game.status = Status.active)
    (hcp : getCurrentPlayer game = some cp)
    (hu : lowerStr cp.userId = lowerStr u)
    (hforced : allOthersPassed game u = true) :
    passCmd (some game) u = (some game, PassOut.mustShoot) := by
  have halive : cp.alive = true := getCurrentPlayer_alive hcp
  simp [passCmd, hact, hcp, hu, halive, hforced]

/-- The shoot body only produces accepted outcomes. -/
theorem shootBody_accepted (game : GameState) (d : Bool) :
    shootAccepted (shootBody game d).2 := by
  unfold shootBody
  cases d with
  | true =>
    simp only [if_true]
    rcases hw : checkWinCondition _ with _ | w <;> simp [hw, shootAccepted]
  | false => simp [shootAccepted]

/-- The pass body only produces the accepted outcome, with a registry
entry still present. -/
theorem passBody_out (game : GameState) :
    ∃ g' b nx f, passBody game = (some g', PassOut.passAccepted b nx f) :=
  ⟨_, _, _, _, rfl⟩

/-! ### Concrete states for witnesses and counterexamples -/

/-- Short-hand player constructor for concrete states. -/
def mkPlayer (u a : String) (al : Bool) (la : Option LastAct) : Player :=
  { userId := u, smartAccountAddress := a, alive := al, lastAction := la }

/-- Waiting game with one enrolled player. -/
def wGameOne : GameState :=
  { players := [mkPlayer "A" "0xa1" true none], potBalance := 7,
    currentTurnIndex := 0, status := Status.waiting, winner := none }

/-- Waiting game with two enrolled players. -/
def wGameTwo : GameState :=
  { players := [mkPlayer "A" "0xa1" true none, mkPlayer "B" "0xb2" true none],
    potBalance := 9, currentTurnIndex := 0, status := Status.waiting, winner := none }

/-- Active three-player game, A to act, fresh rotation. -/
def aGameThree : GameState :=
  { players := [mkPlayer "A" "0xa1" true none, mkPlayer "B" "0xb2" true none,
                mkPlayer "C" "0xc3" true none],
    potBalance := 3000000000000000, currentTurnIndex := 0,
    status := Status.active, winner := none }

/-- Active two-player game, A to act, B has already passed. -/
def aGameTwoPassed : GameState :=
  { players := [mkPlayer "A" "0xa1" true none,
                mkPlayer "B" "0xb2" true (some LastAct.passed)],
    potBalance := 3, currentTurnIndex := 0, status := Status.active, winner := none }

/-- Active two-player game, A to act, small pot, fresh rotation. -/
def aGameTwoFresh : GameState :=
  { players := [mkPlayer "A" "0xa1" true none, mkPlayer "B" "0xb2" true none],
    potBalance := 3, currentTurnIndex := 0, status := Status.active, winner := none }

/-- Active game with a sole alive player. -/
def aGameSolo : GameState :=
  { players := [mkPlayer "A" "0xa1" true none, mkPlayer "B" "0xb2" false none],
    potBalance := 5, currentTurnIndex := 0, status := Status.active, winner := none }

/-- Active game in the should-never-happen zero-alive configuration. -/
def aGameDead : GameState :=
  { players := [mkPlayer "A" "0xa1" false none], potBalance := 5,
    currentTurnIndex := 0, status := Status.active, winner := none }

/-- State of `aGameTwoFresh` after A's accepted pass: the whole pot of 3
wei burned to zero. -/
def aGameTwoAfterPass : GameState :=
  { players := [mkPlayer "A" "0xa1" true (some LastAct.passed),
                mkPlayer "B" "0xb2" true none],
    potBalance := 0, currentTurnIndex := 1, status := Status.active, winner := none }

/-- State of `aGameThree` after A's accepted surviving shoot: everyone
still alive, grit bonus added, turn advanced to B. -/
def aGameThreeAfterClick : GameState :=
  { players := [mkPlayer "A" "0xa1" true none, mkPlayer "B" "0xb2" true none,
                mkPlayer "C" "0xc3" true none],
    potBalance := 4000000000000000, currentTurnIndex := 1,
    status := Status.active, winner := none }

/-! ### Claim theorems -/

/-- Claim C5: a deposit on a waiting game from a sender whose lower-cased
payout address and identity match no enrolled player appends a fresh
alive player and credits the full (positive) amount to the pot, touching
nothing else; a deposit matching an enrolled player's payout address or
identity is rejected as already joined with no state change. -/
theorem claimC5_deposit_enrollment (g : GameState) (u addr : String) (amount : Int)
    (hw : g.status = Status.waiting) (_hpos : 0 < amount) :
    ((g.players.any (fun p => lowerStr p.smartAccountAddress == lowerStr addr ||
        p.userId == u)) = false →
      ∃ g', onTip (some g) u addr amount = (some g', TipOut.joined) ∧
        g'.players = g.players ++
          [{ userId := u, smartAccountAddress := addr, alive := true, lastAction := none }] ∧
        g'.potBalance = g.potBalance + amount ∧
        g'.status = g.status ∧
        g'.currentTurnIndex = g.currentTurnIndex ∧
        g'.winner = g.winner) ∧
    ((g.players.any (fun p => lowerStr p.smartAccountAddress == lowerStr addr ||
        p.userId == u)) = true →
      onTip (some g) u addr amount = (some g, TipOut.alreadyJoined)) := by
  constructor
  · intro h
    refine ⟨{ g with
                players := g.players ++
                  [{ userId := u, smartAccountAddress := addr,
                     alive := true, lastAction := none }]
                potBalance := g.potBalance + amount },
            ?_, rfl, rfl, rfl, rfl, rfl⟩
    simp [onTip, hw, h]
  · intro h
    simp [onTip, hw, h]

theorem claimC5_deposit_enrollment_witness :
    (∃ g', onTip (some wGameOne) "B" "0xb2" 5 = (some g', TipOut.joined) ∧
      g'.players = wGameOne.players ++
        [{ userId := "B", smartAccountAddress := "0xb2", alive := true, lastAction := none }] ∧
      g'.potBalance = wGameOne.potBalance + 5 ∧
      g'.status = wGameOne.status ∧
      g'.currentTurnIndex = wGameOne.currentTurnIndex ∧
      g'.winner = wGameOne.winner) ∧
    onTip (some wGameOne) "A" "0xZZ" 5 = (some wGameOne, TipOut.alreadyJoined) := by
  constructor
  · exact (claimC5_deposit_enrollment wGameOne "B" "0xb2" 5 rfl (by decide)).1 (by decide)
  · exact (claimC5_deposit_enrollment wGameOne "A" "0xZZ" 5 rfl (by decide)).2 (by decide)

/-- Claim C10: a zero-amount deposit from a not-yet-enrolled sender on a
waiting game is accepted — the sender is appended as an alive player and
the pot is unchanged; the engine performs no positivity or minimum
check. -/
theorem claimC10_zero_amount_deposit (g : GameState) (u addr : String)
    (hw : g.status = Status.waiting)
    (hnew : (g.players.any (fun p => lowerStr p.smartAccountAddress == lowerStr addr ||
        p.userId == u)) = false) :
    ∃ g', onTip (some g) u addr 0 = (some g', TipOut.joined) ∧
      g'.players = g.players ++
        [{ userId := u, smartAccountAddress := addr, alive := true, lastAction := none }] ∧
      g'.potBalance = g.potBalance := by
  refine ⟨{ g with
              players := g.players ++
                [{ userId := u, smartAccountAddress := addr,
                   alive := true, lastAction := none }]
              potBalance := g.potBalance + 0 },
          ?_, rfl, by simp⟩
  simp [onTip, hw, hnew]

theorem claimC10_zero_amount_deposit_witness :
    ∃ g', onTip (some wGameOne) "B" "0xb2" 0 = (some g', TipOut.joined) ∧
      g'.players = wGameOne.players ++
        [{ userId := "B", smartAccountAddress := "0xb2", alive := true, lastAction := none }] ∧
      g'.potBalance = wGameOne.potBalance :=
  claimC10_zero_amount_deposit wGameOne "B" "0xb2" rfl (by decide)

/-- Claim C7: start succeeds exactly when a game exists, its status is
waiting and at least two players are enrolled; on success the status
becomes active with turn index 0 so the first enrolled alive player is
current; on any failure the registry entry is unchanged (in particular
a waiting game stays waiting). -/
theorem claimC7_start (reg : Option GameState) :
    ((startGame reg).2 = StartOut.started ↔
      ∃ g, reg = some g ∧ g.status = Status.waiting ∧ 2 ≤ g.players.length) ∧
    (∀ g, reg = some g → g.status = Status.waiting → 2 ≤ g.players.length →
      startGame reg =
        (some { g with status := Status.active, currentTurnIndex := 0 }, StartOut.started) ∧
      getCurrentPlayer { g with status := Status.active, currentTurnIndex := 0 } =
        (getAlivePlayers g).head?) ∧
    ((startGame reg).2 ≠ StartOut.started → (startGame reg).1 = reg) := by
  have hcur : ∀ g : GameState, g.status = Status.waiting → 2 ≤ g.players.length →
      getCurrentPlayer { g with status := Status.active, currentTurnIndex := 0 } =
        (getAlivePlayers g).head? := by
    intro g _ _
    have hsame : getAlivePlayers { g with status := Status.active, currentTurnIndex := 0 } =
        getAlivePlayers g := rfl
    unfold getCurrentPlayer
    rw [hsame]
    by_cases h0 : (getAlivePlayers g).length = 0
    · rw [List.length_eq_zero] at h0
      simp [h0]
    · simp only [h0, if_false, Nat.zero_mod, List.get?_zero]
  rcases reg with _ | g
  · refine ⟨by simp [startGame], by simp, by simp [startGame]⟩
  · by_cases hst : g.status = Status.waiting
    · by_cases hlen : g.players.length < 2
      · refine ⟨?_, ?_, ?_⟩
        · simp [startGame, hst, hlen]
        · intro g' hg' _ hlen'
          cases hg'
          omega
        · simp [startGame, hst, hlen]
      · refine ⟨?_, ?_, ?_⟩
        · simp [startGame, hst, hlen]
          omega
        · intro g' hg' hst' hlen'
          cases hg'
          exact ⟨by simp [startGame, hst, hlen], hcur g hst' hlen'⟩
        · simp [startGame, hst, hlen]
    · refine ⟨?_, ?_, ?_⟩
      · simp [startGame, hst]
      · intro g' hg' hst'
        cases hg'
        exact absurd hst' hst
      · simp [startGame, hst]

theorem claimC7_start_witness :
    startGame (some wGameTwo) =
      (some { wGameTwo with status := Status.active, currentTurnIndex := 0 },
       StartOut.started) ∧
    getCurrentPlayer { wGameTwo with status := Status.active, currentTurnIndex := 0 } =
      (getAlivePlayers wGameTwo).head? :=
  (claimC7_start (some wGameTwo)).2.1 wGameTwo rfl rfl (by decide)

/-- Claim C8: every rejected deposit, start, shoot or pass leaves the
registry entry for the channel exactly as it was — no partial mutation
on any rejection path. -/
theorem claimC8_rejections_unchanged (reg : Option GameState) (u addr : String)
    (amount : Int) (d : Bool) :
    ((onTip reg u addr amount).2 ≠ TipOut.joined → (onTip reg u addr amount).1 = reg) ∧
    ((startGame reg).2 ≠ StartOut.started → (startGame reg).1 = reg) ∧
    (¬ shootAccepted (shoot reg u d).2 → (shoot reg u d).1 = reg) ∧
    ((∀ b nx f, (passCmd reg u).2 ≠ PassOut.passAccepted b nx f) →
      (passCmd reg u).1 = reg) := by
  refine ⟨?_, ?_, ?_, ?_⟩
  · intro h
    rcases reg with _ | g
    · simp [onTip] at h
    · by_cases h1 : g.status = Status.waiting
      · by_cases h2 : (g.players.any (fun p =>
            lowerStr p.smartAccountAddress == lowerStr addr || p.userId == u)) = true
        · simp [onTip, h1, h2]
        · simp [onTip, h1, h2] at h
      · simp [onTip, h1]
  · intro h
    rcases reg with _ | g
    · simp [startGame]
    · by_cases h1 : g.status = Status.waiting
      · by_cases h2 : g.players.length < 2
        · simp [startGame, h1, h2]
        · simp [startGame, h1, h2] at h
      · simp [startGame, h1]
  · intro h
    rcases reg with _ | g
    · simp [shoot]
    · by_cases h1 : g.status = Status.active
      · rcases hcp : getCurrentPlayer g with _ | cp
        · simp [shoot, h1, hcp]
        · by_cases h2 : lowerStr cp.userId = lowerStr u
          · rw [shoot_eq_shootBody d h1 hcp h2] at h
            exact absurd (shootBody_accepted g d) h
          · simp [shoot, h1, hcp, h2]
      · simp [shoot, h1]
  · intro h
    rcases reg with _ | g
    · simp [passCmd]
    · by_cases h1 : g.status = Status.active
      · rcases hcp : getCurrentPlayer g with _ | cp
        · simp [passCmd, h1, hcp]
        · by_cases h2 : lowerStr cp.userId = lowerStr u
          · by_cases h3 : allOthersPassed g u = true
            · rw [passCmd_mustShoot h1 hcp h2 h3]
            · have hpc := passCmd_eq_passBody h1 hcp h2 (by simpa using h3)
              rcases passBody_out g with ⟨g', b, nx, f, hout⟩
              have hcontra : (passCmd (some g) u).2 = PassOut.passAccepted b nx f := by
                rw [hpc, hout]
              exact absurd hcontra (h b nx f)
          · simp [passCmd, h1, hcp, h2]
      · simp [passCmd, h1]

theorem claimC8_rejections_unchanged_witness :
    (startGame (some wGameOne)).1 = some wGameOne ∧
    (shoot (some aGameThree) "B" true).1 = some aGameThree ∧
    (passCmd (some aGameTwoPassed) "A").1 = some aGameTwoPassed := by
  refine ⟨?_, ?_, ?_⟩
  · exact (claimC8_rejections_unchanged (some wGameOne) "A" "0xa1" 5 true).2.1 (by decide)
  · refine (claimC8_rejections_unchanged (some aGameThree) "B" "0xa1" 5 true).2.2.1 ?_
    rw [show (shoot (some aGameThree) "B" true).2 = ShootOut.notYourTurn from by decide]
    simp [shootAccepted]
  · refine (claimC8_rejections_unchanged (some aGameTwoPassed) "A" "0xa1" 5 true).2.2.2 ?_
    intro b nx f
    rw [show (passCmd (some aGameTwoPassed) "A").2 = PassOut.mustShoot from by decide]
    simp

/-- Advancing the turn never touches the pot. -/
theorem advanceTurn_potBalance (game : GameState) :
    (advanceTurn game).potBalance = game.potBalance := by
  simp only [advanceTurn]
  split <;> rfl

/-- Advancing the turn never touches the player list. -/
theorem advanceTurn_players (game : GameState) :
    (advanceTurn game).players = game.players := by
  simp only [advanceTurn]
  split <;> rfl

/-- Advancing the turn never touches status or winner. -/
theorem advanceTurn_status (game : GameState) :
    (advanceTurn game).status = game.status ∧
    (advanceTurn game).winner = game.winner := by
  simp only [advanceTurn]
  split <;> exact ⟨rfl, rfl⟩

/-- Pot effect of an accepted shoot: unchanged on a bang, grit bonus
added on a click. -/
theorem shootBody_pot (game : GameState) (d : Bool) :
    ∀ g', (shootBody game d).1 = some g' →
      g'.potBalance = game.potBalance ∨
      g'.potBalance = game.potBalance + GRIT_BONUS := by
  intro g' hg'
  unfold shootBody at hg'
  cases d with
  | true =>
    simp only [if_true] at hg'
    rcases hw : checkWinCondition _ with _ | w <;> rw [hw] at hg'
    · simp only [Option.some_inj] at hg'
      left
      rw [← hg', advanceTurn_potBalance]
    · simp at hg'
  | false =>
    simp only [Bool.false_eq_true, if_false, Option.some_inj] at hg'
    right
    rw [← hg', advanceTurn_potBalance]

/-- Pot effect of an accepted pass: the burn is the pot itself when the
pot is below the burn constant, the constant otherwise. -/
theorem passBody_pot (game : GameState) :
    ∀ g', (passBody game).1 = some g' →
      g'.potBalance = game.potBalance -
        (if game.potBalance ≥ PASS_BURN then PASS_BURN else game.potBalance) := by
  intro g' hg'
  unfold passBody at hg'
  simp only [Option.some_inj] at hg'
  rw [← hg']
  split <;> split
  all_goals
    show (advanceTurn _).potBalance = _
  all_goals rw [advanceTurn_potBalance]

/-- One shoot or pass event keeps the pot non-negative. -/
theorem pot_nonneg_stepA (reg : Option GameState) (a : Act) (ha : isRiskAct a)
    (h : ∀ g, reg = some g → 0 ≤ g.potBalance) :
    ∀ g', stepA reg a = some g' → 0 ≤ g'.potBalance := by
  intro g' hg'
  cases a with
  | tipA u ad am => exact absurd ha (by simp [isRiskAct])
  | startA => exact absurd ha (by simp [isRiskAct])
  | shootA u d =>
    rcases reg with _ | g
    · simp [stepA, shoot] at hg'
    · simp only [stepA] at hg'
      by_cases h1 : g.status = Status.active
      · rcases hcp : getCurrentPlayer g with _ | cp
        · simp [shoot, h1, hcp] at hg'
          exact hg' ▸ h g rfl
        · by_cases h2 : lowerStr cp.userId = lowerStr u
          · rw [shoot_eq_shootBody d h1 hcp h2] at hg'
            rcases shootBody_pot g d g' hg' with hp | hp <;> rw [hp]
            · exact h g rfl
            · have := h g rfl
              have hgb : (0:Int) ≤ GRIT_BONUS := by decide
              omega
          · simp [shoot, h1, hcp, h2] at hg'
            exact hg' ▸ h g rfl
      · simp [shoot, h1] at hg'
        exact hg' ▸ h g rfl
  | passA u =>
    rcases reg with _ | g
    · simp [stepA, passCmd] at hg'
    · simp only [stepA] at hg'
      by_cases h1 : g.status = Status.active
      · rcases hcp : getCurrentPlayer g with _ | cp
        · simp [passCmd, h1, hcp] at hg'
          exact hg' ▸ h g rfl
        · by_cases h2 : lowerStr cp.userId = lowerStr u
          · by_cases h3 : allOthersPassed g u = true
            · rw [passCmd_mustShoot h1 hcp h2 h3] at hg'
              simp at hg'
              exact hg' ▸ h g rfl
            · rw [passCmd_eq_passBody h1 hcp h2 (by simpa using h3)] at hg'
              rw [passBody_pot g g' hg']
              have := h g rfl
              have hpb : (0:Int) < PASS_BURN := by decide
              split <;> omega
          · simp [passCmd, h1, hcp, h2] at hg'
            exact hg' ▸ h g rfl
      · simp [passCmd, h1] at hg'
        exact hg' ▸ h g rfl

/-- Claim C2: over any sequence of shoot and pass events the pot never
goes negative, and an accepted pass with the pot below the burn constant
burns the pot to exactly zero, never below. -/
theorem claimC2_pot_never_negative :
    (∀ (reg : Option GameState) (acts : List Act),
      (∀ a ∈ acts, isRiskAct a) →
      (∀ g, reg = some g → 0 ≤ g.potBalance) →
      ∀ g', runActs reg acts = some g' → 0 ≤ g'.potBalance) ∧
    (∀ (g : GameState) (u : String) (b : Int) (nx : Option String) (f : Bool)
        (g' : GameState),
      passCmd (some g) u = (some g', PassOut.passAccepted b nx f) →
      0 ≤ g.potBalance → g.potBalance < PASS_BURN → g'.potBalance = 0) := by
  constructor
  · intro reg acts
    induction acts generalizing reg with
    | nil =>
      intro _ h g' hg'
      exact h g' hg'
    | cons a rest ih =>
      intro hall h g' hg'
      simp only [runActs, List.foldl_cons] at hg'
      exact ih (stepA reg a)
        (fun b hb => hall b (List.mem_cons_of_mem a hb))
        (fun g hg => pot_nonneg_stepA reg a (hall a (List.mem_cons_self a rest)) h g hg)
        g' hg'
  · intro g u b nx f g' hpass hge hlt
    have h1 : g.status = Status.active := by
      by_contra h1
      simp [passCmd, h1] at hpass
    rcases hcp : getCurrentPlayer g with _ | cp
    · simp [passCmd, h1, hcp] at hpass
    · by_cases h2 : lowerStr cp.userId = lowerStr u
      · by_cases h3 : allOthersPassed g u = true
        · rw [passCmd_mustShoot h1 hcp h2 h3] at hpass
          simp at hpass
        · rw [passCmd_eq_passBody h1 hcp h2 (by simpa using h3)] at hpass
          have := passBody_pot g g' (by rw [hpass])
          rw [this, if_neg (by omega)]
          omega
      · simp [passCmd, h1, hcp, h2] at hpass

theorem claimC2_pot_never_negative_witness :
    (0:Int) ≤ aGameTwoAfterPass.potBalance ∧ aGameTwoAfterPass.potBalance = 0 := by
  constructor
  · exact claimC2_pot_never_negative.1 (some aGameTwoFresh) [Act.passA "A"]
      (by intro a ha; simp at ha; subst ha; trivial)
      (by intro g hg; cases hg; decide)
      aGameTwoAfterPass (by decide)
  · exact claimC2_pot_never_negative.2 aGameTwoFresh "A" 3 (some "B") false
      aGameTwoAfterPass (by decide) (by decide) (by decide)

/-- Killing the k-th alive player of a reset list leaves every remaining
alive player with no `lastAction`. -/
theorem kill_after_reset (ps : List Player) (k : Nat) :
    ∀ p ∈ setAliveNth (fun p => { p with alive := false }) (resetAlive ps) k,
      p.alive = true → p.lastAction = none := by
  intro p hp ha
  rcases mem_setAliveNth _ _ _ hp with hmem | ⟨q, _, rfl⟩
  · exact resetAlive_alive_lastAction hmem ha
  · simp at ha

/-- After the shoot body, every player alive in the resulting state (in
the registry or in the finished game) has `lastAction = none`. -/
theorem shootBody_lastAction (game : GameState) (d : Bool) :
    (∀ g', (shootBody game d).1 = some g' →
      ∀ p ∈ g'.players, p.alive = true → p.lastAction = none) ∧
    (∀ w fin, (shootBody game d).2 = ShootOut.bangWin w fin →
      ∀ p ∈ fin.players, p.alive = true → p.lastAction = none) := by
  constructor
  · intro g' hg' p hp ha
    unfold shootBody at hg'
    cases d with
    | true =>
      simp only [if_true] at hg'
      rcases hw : checkWinCondition _ with _ | w <;> rw [hw] at hg'
      · simp only [Option.some_inj] at hg'
        rw [← hg', advanceTurn_players] at hp
        exact kill_after_reset _ _ p hp ha
      · simp at hg'
    | false =>
      simp only [Bool.false_eq_true, if_false, Option.some_inj] at hg'
      rw [← hg', advanceTurn_players] at hp
      exact resetAlive_alive_lastAction hp ha
  · intro w fin hfin p hp ha
    unfold shootBody at hfin
    cases d with
    | true =>
      simp only [if_true] at hfin
      rcases hw : checkWinCondition _ with _ | w' <;> rw [hw] at hfin
      · simp at hfin
      · simp only [ShootOut.bangWin.injEq] at hfin
        rw [← hfin.2] at hp
        exact kill_after_reset _ _ p hp ha
    | false => simp at hfin

/-- Claim C6: after every accepted shoot — bang or click, win or not —
every player still alive in the resulting state has `lastAction = none`
(the rotation reset accompanies every shoot). -/
theorem claimC6_rotation_reset (g : GameState) (u : String) (d : Bool) (cp : Player)
    (hact : g.status = Status.active) (hcp : getCurrentPlayer g = some cp)
    (hu : lowerStr cp.userId = lowerStr u) :
    (∀ g', (shoot (some g) u d).1 = some g' →
      (g'.players.all (fun p => !p.alive || p.lastAction.isNone)) = true) ∧
    (∀ w fin, (shoot (some g) u d).2 = ShootOut.bangWin w fin →
      (fin.players.all (fun p => !p.alive || p.lastAction.isNone)) = true) := by
  rw [shoot_eq_shootBody d hact hcp hu]
  have hconv : ∀ ps : List Player,
      (∀ p ∈ ps, p.alive = true → p.lastAction = none) →
      (ps.all (fun p => !p.alive || p.lastAction.isNone)) = true := by
    intro ps h
    rw [List.all_eq_true]
    intro p hp
    cases hpa : p.alive with
    | false => simp
    | true =>
      have := h p hp hpa
      simp [this]
  constructor
  · intro g' hg'
    exact hconv _ ((shootBody_lastAction g d).1 g' hg')
  · intro w fin hfin
    exact hconv _ ((shootBody_lastAction g d).2 w fin hfin)

theorem claimC6_rotation_reset_witness :
    (aGameThreeAfterClick.players.all (fun p => !p.alive || p.lastAction.isNone)) = true :=
  (claimC6_rotation_reset aGameThree "A" false (mkPlayer "A" "0xa1" true none)
    rfl (by decide) rfl).1 aGameThreeAfterClick (by decide)

/-- Claim C9: with at least one alive player `getCurrentPlayer` returns
the alive player at the turn index modulo the alive count (never out of
bounds, whatever the index); with zero alive players it returns `null`,
and shoot and pass on such an active game respond with the game-error
rejection instead of crashing, leaving the state unchanged. -/
theorem claimC9_current_player_safety (g : GameState) (u : String) (d : Bool) :
    (0 < (getAlivePlayers g).length →
      ∃ p, getCurrentPlayer g = some p ∧ p.alive = true ∧
        getCurrentPlayer g =
          (getAlivePlayers g)[g.currentTurnIndex % (getAlivePlayers g).length]?) ∧
    ((getAlivePlayers g).length = 0 →
      getCurrentPlayer g = none ∧
      (g.status = Status.active →
        shoot (some g) u d = (some g, ShootOut.gameError) ∧
        passCmd (some g) u = (some g, PassOut.gameError))) := by
  constructor
  · intro hpos
    rcases getCurrentPlayer_isSome (Nat.pos_iff_ne_zero.mp hpos) with ⟨p, hp⟩
    exact ⟨p, hp, getCurrentPlayer_alive hp,
      getCurrentPlayer_eq_getElem? (Nat.pos_iff_ne_zero.mp hpos)⟩
  · intro h0
    have hnone := getCurrentPlayer_none h0
    refine ⟨hnone, fun hact => ⟨?_, ?_⟩⟩
    · simp [shoot, hact, hnone]
    · simp [passCmd, hact, hnone]

theorem claimC9_current_player_safety_witness :
    (∃ p, getCurrentPlayer aGameSolo = some p ∧ p.alive = true ∧
      getCurrentPlayer aGameSolo =
        (getAlivePlayers aGameSolo)[aGameSolo.currentTurnIndex %
          (getAlivePlayers aGameSolo).length]?) ∧
    (getCurrentPlayer aGameDead = none ∧
      shoot (some aGameDead) "A" true = (some aGameDead, ShootOut.gameError) ∧
      passCmd (some aGameDead) "A" = (some aGameDead, PassOut.gameError)) := by
  refine ⟨?_, ?_, ?_⟩
  · exact (claimC9_current_player_safety aGameSolo "A" true).1 (by decide)
  · exact ((claimC9_current_player_safety aGameDead "A" true).2 (by decide)).1
  · exact ((claimC9_current_player_safety aGameDead "A" true).2 (by decide)).2 rfl

/-- Claim C4: when the acting player is the current player and every
*other* alive player has passed, the pass is rejected with no state
change while a shoot in the same state is accepted; when there are no
other alive players (sole survivor acting) the pass is permitted. -/
theorem claimC4_forced_shoot (g : GameState) (u : String) (cp : Player)
    (hact : g.status = Status.active)
    (hcp : getCurrentPlayer g = some cp)
    (hu : cp.userId = u) :
    ((getAlivePlayers g).filter (fun p => p.userId != u) ≠ [] →
      (∀ p ∈ (getAlivePlayers g).filter (fun p => p.userId != u),
        p.lastAction = some LastAct.passed) →
      passCmd (some g) u = (some g, PassOut.mustShoot)) ∧
    (∀ d, shootAccepted (shoot (some g) u d).2) ∧
    ((getAlivePlayers g).filter (fun p => p.userId != u) = [] →
      ∃ g' b nx f, passCmd (some g) u = (some g', PassOut.passAccepted b nx f)) := by
  have hlow : lowerStr cp.userId = lowerStr u := by rw [hu]
  refine ⟨?_, ?_, ?_⟩
  · intro hne hall
    have hforced : allOthersPassed g u = true := by
      unfold allOthersPassed
      rw [Bool.and_eq_true]
      constructor
      · simp only [gt_iff_lt, decide_eq_true_eq]
        exact List.length_pos.mpr hne
      · rw [List.all_eq_true]
        intro p hp
        simp [hall p hp]
    exact passCmd_mustShoot hact hcp hlow hforced
  · intro d
    rw [shoot_eq_shootBody d hact hcp hlow]
    exact shootBody_accepted g d
  · intro hempty
    have hforced : allOthersPassed g u = false := by
      unfold allOthersPassed
      simp [hempty]
    rw [passCmd_eq_passBody hact hcp hlow hforced]
    rcases passBody_out g with ⟨g', b, nx, f, hout⟩
    exact ⟨g', b, nx, f, hout⟩

theorem claimC4_forced_shoot_witness :
    passCmd (some aGameTwoPassed) "A" = (some aGameTwoPassed, PassOut.mustShoot) ∧
    shootAccepted (shoot (some aGameTwoPassed) "A" true).2 ∧
    (∃ g' b nx f, passCmd (some aGameSolo) "A" = (some g', PassOut.passAccepted b nx f)) := by
  refine ⟨?_, ?_, ?_⟩
  · exact (claimC4_forced_shoot aGameTwoPassed "A"
      (mkPlayer "A" "0xa1" true none) rfl (by decide) rfl).1
      (by decide) (by decide)
  · exact (claimC4_forced_shoot aGameTwoPassed "A"
      (mkPlayer "A" "0xa1" true none) rfl (by decide) rfl).2.1 true
  · exact (claimC4_forced_shoot aGameSolo "A"
      (mkPlayer "A" "0xa1" true none) rfl (by decide) rfl).2.2 (by decide)

theorem getAlivePlayers_advanceTurn (game : GameState) :
    getAlivePlayers (advanceTurn game) = getAlivePlayers game := by
  unfold getAlivePlayers
  rw [advanceTurn_players]

theorem advanceTurn_idx {game : GameState} (h : 0 < (getAlivePlayers game).length) :
    (advanceTurn game).currentTurnIndex =
      (game.currentTurnIndex + 1) % (getAlivePlayers game).length := by
  simp only [advanceTurn]
  rw [if_pos h]

theorem checkWinCondition_some {game : GameState} {w : String}
    (h : checkWinCondition game = some w) :
    (getAlivePlayers game).length = 1 := by
  unfold checkWinCondition at h
  by_cases h1 : (getAlivePlayers game).length = 1
  · exact h1
  · simp [h1] at h

theorem checkWinCondition_none {game : GameState}
    (h : (getAlivePlayers game).length ≠ 1) : checkWinCondition game = none := by
  unfold checkWinCondition
  simp [h]

theorem checkWinCondition_single {game : GameState} {p : Player}
    (h : getAlivePlayers game = [p]) : checkWinCondition game = some p.userId := by
  unfold checkWinCondition
  simp [h]

/-- Alive filter after a full dead-shoot mutation chain: modify the k-th
alive entry, reset every alive entry, erase the k-th entry. -/
theorem filterAlive_shoot_chain (ps : List Player) (k : Nat) :
    (setAliveNth (fun p => { p with alive := false })
        (resetAlive (setAliveNth (fun p => { p with lastAction := some LastAct.shot })
          ps k)) k).filter (fun p => p.alive) =
      ((listModify (fun p => { p with lastAction := some LastAct.shot })
          (ps.filter (fun p => p.alive)) k).map
        (fun p => { p with lastAction := none })).eraseIdx k := by
  rw [filterAlive_setAliveNth_kill, filterAlive_resetAlive,
    filterAlive_setAliveNth (fun p => { p with lastAction := some LastAct.shot })
      (fun p => rfl)]

/-- The dead-shoot mutation chain does not change user ids (before the
erase step). -/
theorem map_userId_shoot_chain (l : List Player) (k : Nat) :
    ((listModify (fun p => { p with lastAction := some LastAct.shot }) l k).map
        (fun p => { p with lastAction := none })).map Player.userId =
      l.map Player.userId := by
  rw [List.map_map]
  have hcomp : (Player.userId ∘ fun p : Player => { p with lastAction := none }) =
      Player.userId := funext fun p => rfl
  rw [hcomp, map_listModify Player.userId
    (fun p => { p with lastAction := some LastAct.shot }) (fun p => rfl)]

/-- The dead branch of the shoot body, written through `deadState`. -/
theorem shootBody_true_eq (game : GameState) :
    shootBody game true =
      (match checkWinCondition (deadState game) with
       | some w => (none, ShootOut.bangWin w
           { deadState game with status := Status.finished, winner := some w })
       | none => (some (advanceTurn (deadState game)),
           ShootOut.bangNext ((getCurrentPlayer (advanceTurn (deadState game))).map
             Player.userId))) := rfl

/-- The click branch of the shoot body, written through `liveState`. -/
theorem shootBody_false_eq (game : GameState) :
    shootBody game false =
      (some (advanceTurn (liveState game)),
       ShootOut.clickNext ((getCurrentPlayer (advanceTurn (liveState game))).map
         Player.userId)) := rfl

theorem getAlivePlayers_deadState (game : GameState) :
    getAlivePlayers (deadState game) =
      ((listModify (fun p => { p with lastAction := some LastAct.shot })
          (getAlivePlayers game) (game.currentTurnIndex % (getAlivePlayers game).length)).map
        (fun p => { p with lastAction := none })).eraseIdx
        (game.currentTurnIndex % (getAlivePlayers game).length) :=
  filterAlive_shoot_chain game.players _

theorem getAlivePlayers_liveState (game : GameState) :
    getAlivePlayers (liveState game) =
      (listModify (fun p => { p with lastAction := some LastAct.shot })
          (getAlivePlayers game) (game.currentTurnIndex % (getAlivePlayers game).length)).map
        (fun p => { p with lastAction := none }) := by
  show (resetAlive _).filter (fun p => p.alive) = _
  rw [filterAlive_resetAlive, filterAlive_setAliveNth
    (fun p => { p with lastAction := some LastAct.shot }) (fun p => rfl)]
  rfl

theorem length_alive_deadState (game : GameState)
    (hk : game.currentTurnIndex % (getAlivePlayers game).length <
      (getAlivePlayers game).length) :
    (getAlivePlayers (deadState game)).length = (getAlivePlayers game).length - 1 := by
  rw [getAlivePlayers_deadState, List.length_eraseIdx, List.length_map,
    length_listModify, if_pos hk]

/-- Claim C3: an accepted shoot finishes the game if and only if the bang
leaves exactly one alive player; at that instant the winner is that sole
survivor, the turn index has not been advanced, and the game is deleted
from the registry so a status query finds no game; any shoot outcome
that stays in the registry is still active. -/
theorem claimC3_win_detection (g : GameState) (u : String) (cp : Player)
    (hact : g.status = Status.active)
    (hcp : getCurrentPlayer g = some cp)
    (hu : lowerStr cp.userId = lowerStr u) :
    ((getAlivePlayers g).length = 2 →
      ∃ w fin, shoot (some g) u true = (none, ShootOut.bangWin w fin) ∧
        fin.status = Status.finished ∧ fin.winner = some w ∧
        (∃ p, getAlivePlayers fin = [p] ∧ p.userId = w ∧ p.alive = true) ∧
        fin.currentTurnIndex = g.currentTurnIndex ∧
        gameStatusFound (shoot (some g) u true).1 = false) ∧
    (∀ d g', (shoot (some g) u d).1 = some g' → g'.status = Status.active) ∧
    (∀ d w fin, (shoot (some g) u d).2 = ShootOut.bangWin w fin →
      d = true ∧ (getAlivePlayers g).length = 2) := by
  have hn0 : (getAlivePlayers g).length ≠ 0 := by
    intro h0
    rw [getCurrentPlayer_none h0] at hcp
    cases hcp
  have hk : g.currentTurnIndex % (getAlivePlayers g).length <
      (getAlivePlayers g).length := Nat.mod_lt _ (Nat.pos_of_ne_zero hn0)
  have hlen3 := length_alive_deadState g hk
  refine ⟨?_, ?_, ?_⟩
  · intro h2
    have h1 : (getAlivePlayers (deadState g)).length = 1 := by rw [hlen3, h2]
    rcases List.length_eq_one.mp h1 with ⟨p, hp⟩
    have hwin : checkWinCondition (deadState g) = some p.userId :=
      checkWinCondition_single hp
    have hEq : shoot (some g) u true =
        (none, ShootOut.bangWin p.userId
          { deadState g with status := Status.finished, winner := some p.userId }) := by
      rw [shoot_eq_shootBody true hact hcp hu, shootBody_true_eq, hwin]
    refine ⟨p.userId, _, hEq, rfl, rfl, ⟨p, ?_, rfl, ?_⟩, rfl, ?_⟩
    · show getAlivePlayers (deadState g) = [p]
      exact hp
    · have hmem : p ∈ getAlivePlayers (deadState g) := by
        rw [hp]
        exact List.mem_cons_self p []
      exact mem_getAlivePlayers_alive hmem
    · rw [hEq]
      rfl
  · intro d g' hg'
    cases d with
    | false =>
      rw [shoot_eq_shootBody false hact hcp hu, shootBody_false_eq] at hg'
      simp only [Option.some_inj] at hg'
      rw [← hg', (advanceTurn_status _).1]
      exact hact
    | true =>
      rw [shoot_eq_shootBody true hact hcp hu, shootBody_true_eq] at hg'
      rcases hw : checkWinCondition (deadState g) with _ | w <;> rw [hw] at hg'
      · simp only [Option.some_inj] at hg'
        rw [← hg', (advanceTurn_status _).1]
        exact hact
      · simp at hg'
  · intro d w fin hfin
    cases d with
    | false =>
      rw [shoot_eq_shootBody false hact hcp hu, shootBody_false_eq] at hfin
      simp at hfin
    | true =>
      refine ⟨rfl, ?_⟩
      rw [shoot_eq_shootBody true hact hcp hu, shootBody_true_eq] at hfin
      rcases hw : checkWinCondition (deadState g) with _ | w' <;> rw [hw] at hfin
      · simp at hfin
      · have h1 := checkWinCondition_some hw
        rw [hlen3] at h1
        omega

theorem claimC3_win_detection_witness :
    ∃ w fin, shoot (some aGameTwoFresh) "A" true = (none, ShootOut.bangWin w fin) ∧
      fin.status = Status.finished ∧ fin.winner = some w ∧
      (∃ p, getAlivePlayers fin = [p] ∧ p.userId = w ∧ p.alive = true) ∧
      fin.currentTurnIndex = aGameTwoFresh.currentTurnIndex ∧
      gameStatusFound (shoot (some aGameTwoFresh) "A" true).1 = false :=
  (claimC3_win_detection aGameTwoFresh "A" (mkPlayer "A" "0xa1" true none)
    rfl (by decide) rfl).1 (by decide)

/-- Rotation arithmetic behind the post-elimination turn advance: in a
list of length at least 3, erasing index `k` and reading index
`(k + 1) % (length - 1)` lands on the *second* element cyclically after
position `k` of the original list. -/
theorem eraseIdx_rot (l : List α) (k n : Nat) (hlen : l.length = n)
    (h3 : 3 ≤ n) (hk : k < n) :
    (l.eraseIdx k)[(k + 1) % (n - 1)]? = (l.drop (k + 1) ++ l.take k)[1]? := by
  subst hlen
  rcases Nat.lt_or_ge (k + 1) (l.length - 1) with hA | hB
  · rw [Nat.mod_eq_of_lt hA, List.getElem?_eraseIdx, if_neg (by omega),
      List.getElem?_append, if_pos (by rw [List.length_drop]; omega),
      List.getElem?_drop]
  · rcases Nat.lt_or_ge k (l.length - 1) with hB1 | hB2
    · have hk1 : k + 1 = l.length - 1 := by omega
      rw [hk1, Nat.mod_self, List.getElem?_eraseIdx, if_pos (by omega),
        List.getElem?_append, if_neg (by rw [List.length_drop]; omega)]
      rw [List.length_drop]
      have h0 : 1 - (l.length - (l.length - 1)) = 0 := by omega
      rw [h0, List.getElem?_take, if_pos (by omega)]
    · have hk1 : k = l.length - 1 := by omega
      have hmod : (k + 1) % (l.length - 1) = 1 := by
        have he : k + 1 = (l.length - 1) + 1 := by omega
        rw [he, Nat.add_mod_left, Nat.mod_eq_of_lt (by omega)]
      rw [hmod, List.getElem?_eraseIdx, if_pos (by omega),
        List.getElem?_append, if_neg (by rw [List.length_drop]; omega)]
      rw [List.length_drop]
      have h0 : 1 - (l.length - (k + 1)) = 1 := by omega
      rw [h0, List.getElem?_take, if_pos (by omega)]

/-- Claim C1 counterexample: with `[A,B,C]` all alive and `A` shooting
and being eliminated, the turn advances to `C`, not to `B` as the claim
states — the code advances the index once more after the elimination has
already shifted the alive list. -/
theorem claimC1_counterexample :
    (shoot (some aGameThree) "A" true).2 = ShootOut.bangNext (some "C") ∧
    ShootOut.bangNext (some "C") ≠ ShootOut.bangNext (some "B") :=
  ⟨by decide, by decide⟩

/-- Claim C1 (amended): whenever a shoot eliminates the acting player and
at least two players remain alive, the next current player is the
*second* alive player cyclically after the eliminated one in original
enrollment order (the immediately next alive player is skipped); and a
non-eliminating shoot advances the turn to the next alive player in
original order, so turn order among survivors continues cyclically. -/
theorem claimC1_amended (g : GameState) (u : String) (cp : Player)
    (hact : g.status = Status.active)
    (hcp : getCurrentPlayer g = some cp)
    (hu : lowerStr cp.userId = lowerStr u)
    (hn : 3 ≤ (getAlivePlayers g).length)
    (ht : g.currentTurnIndex < (getAlivePlayers g).length) :
    (∃ g', shoot (some g) u true =
        (some g', ShootOut.bangNext ((getCurrentPlayer g').map Player.userId)) ∧
      (getCurrentPlayer g').map Player.userId =
        (((getAlivePlayers g).drop (g.currentTurnIndex + 1) ++
          (getAlivePlayers g).take g.currentTurnIndex)[1]?).map Player.userId) ∧
    (∀ (g0 : GameState) (u0 : String) (cp0 : Player),
      g0.status = Status.active → getCurrentPlayer g0 = some cp0 →
      lowerStr cp0.userId = lowerStr u0 →
      ∃ g0', shoot (some g0) u0 false =
          (some g0', ShootOut.clickNext ((getCurrentPlayer g0').map Player.userId)) ∧
        (getCurrentPlayer g0').map Player.userId =
          ((getAlivePlayers g0)[(g0.currentTurnIndex + 1) %
            (getAlivePlayers g0).length]?).map Player.userId) := by
  constructor
  · have hkmod : g.currentTurnIndex % (getAlivePlayers g).length = g.currentTurnIndex :=
      Nat.mod_eq_of_lt ht
    have hlen3 := length_alive_deadState g (by rw [hkmod]; exact ht)
    have hwnone : checkWinCondition (deadState g) = none :=
      checkWinCondition_none (by rw [hlen3]; omega)
    have hEq : shoot (some g) u true =
        (some (advanceTurn (deadState g)),
         ShootOut.bangNext ((getCurrentPlayer (advanceTurn (deadState g))).map
           Player.userId)) := by
      rw [shoot_eq_shootBody true hact hcp hu, shootBody_true_eq, hwnone]
    refine ⟨advanceTurn (deadState g), hEq, ?_⟩
    have hAlive' : getAlivePlayers (advanceTurn (deadState g)) =
        getAlivePlayers (deadState g) := getAlivePlayers_advanceTurn _
    have hlen'ne : (getAlivePlayers (advanceTurn (deadState g))).length ≠ 0 := by
      rw [hAlive', hlen3]
      omega
    have hidx : (advanceTurn (deadState g)).currentTurnIndex =
        (g.currentTurnIndex + 1) % ((getAlivePlayers g).length - 1) := by
      rw [advanceTurn_idx (by rw [hlen3]; omega), hlen3]
      rfl
    rw [getCurrentPlayer_eq_getElem? hlen'ne, hAlive', hidx, hlen3,
      Nat.mod_eq_of_lt (Nat.mod_lt _ (by omega)),
      getAlivePlayers_deadState, hkmod,
      ← List.getElem?_map Player.userId, ← List.getElem?_map Player.userId,
      map_eraseIdx_comm, map_userId_shoot_chain,
      List.map_append, List.map_drop, List.map_take]
    exact eraseIdx_rot ((getAlivePlayers g).map Player.userId) g.currentTurnIndex
      (getAlivePlayers g).length (List.length_map _ _) hn ht
  · intro g0 u0 cp0 hact0 hcp0 hu0
    have hn0' : (getAlivePlayers g0).length ≠ 0 := by
      intro h0
      rw [getCurrentPlayer_none h0] at hcp0
      cases hcp0
    have hEq : shoot (some g0) u0 false =
        (some (advanceTurn (liveState g0)),
         ShootOut.clickNext ((getCurrentPlayer (advanceTurn (liveState g0))).map
           Player.userId)) := by
      rw [shoot_eq_shootBody false hact0 hcp0 hu0, shootBody_false_eq]
    refine ⟨advanceTurn (liveState g0), hEq, ?_⟩
    have hAliveL : getAlivePlayers (advanceTurn (liveState g0)) =
        getAlivePlayers (liveState g0) := getAlivePlayers_advanceTurn _
    have hlenL : (getAlivePlayers (liveState g0)).length = (getAlivePlayers g0).length := by
      rw [getAlivePlayers_liveState, List.length_map, length_listModify]
    have hlen'ne : (getAlivePlayers (advanceTurn (liveState g0))).length ≠ 0 := by
      rw [hAliveL, hlenL]
      exact hn0'
    have hidx : (advanceTurn (liveState g0)).currentTurnIndex =
        (g0.currentTurnIndex + 1) % (getAlivePlayers g0).length := by
      rw [advanceTurn_idx (by rw [hlenL]; exact Nat.pos_of_ne_zero hn0'), hlenL]
      rfl
    rw [getCurrentPlayer_eq_getElem? hlen'ne, hAliveL, hidx, hlenL,
      Nat.mod_eq_of_lt (Nat.mod_lt _ (Nat.pos_of_ne_zero hn0')),
      getAlivePlayers_liveState,
      ← List.getElem?_map Player.userId, ← List.getElem?_map Player.userId,
      map_userId_shoot_chain]

theorem claimC1_amended_witness :
    ∃ g', shoot (some aGameThree) "A" true =
        (some g', ShootOut.bangNext ((getCurrentPlayer g').map Player.userId)) ∧
      (getCurrentPlayer g').map Player.userId =
        (((getAlivePlayers aGameThree).drop (aGameThree.currentTurnIndex + 1) ++
          (getAlivePlayers aGameThree).take aGameThree.currentTurnIndex)[1]?).map
          Player.userId :=
  (claimC1_amended aGameThree "A" (mkPlayer "A" "0xa1" true none) rfl (by decide) rfl
    (by decide) (by decide)).1
